import Mathlib

/-!
Verification development for the EthSign Keychain snap's state
synchronization layer.

The definitions below are a shallow embedding of the TypeScript sources:

* `src/packages/snap/src/arweave.ts` — the event-replay engine
  (`getObjectsFromStorage`), registry signature/message validation
  (`verifyRegistrySignature`, `isValidMessage`), and the state
  encryption helpers (`getEncryptedStringFromBuffer`,
  `decryptDataArrayFromString`);
* `src/packages/snap/src/index.ts` — the state data model, and
  `exportState` / `importState`;
* `src/unnamed/part_003` (the latest `index.ts` variant with
  `RemoteLocation` and `awsInitFailure`) — `processPending`;
* `src/packages/snap/src/misc/storage.ts` — `postUploadBatchToStorage`
  (the AWS chunked upload path).

JavaScript objects used as string-keyed maps (`pwState`,
`credentialAccess`) are embedded as association lists whose update
operation replaces the first matching key in place and otherwise
appends, mirroring JS property-update/insertion semantics.  Timestamps
are integer Unix seconds and are embedded as `Nat` (the code only ever
compares them).  External cryptographic primitives (`nacl.secretbox`,
SHA-256) are not part of this repository; they are embedded as ideal
primitives: an authenticated-encryption box that opens exactly when the
nonce and key match, and an injective digest function.  Network and
dialog effects are embedded by passing the outcome of each external
call (user's entered password, per-chunk upload acknowledgment, AWS
init result) as explicit parameters.
-/

/-- `EthSignKeychainEntry` from `index.ts`: one stored login. -/
structure EthSignKeychainEntry where
  timestamp : Nat
  url : String
  username : String
  password : String
  address : String
  controlled : Option String
deriving DecidableEq

/-- `EthSignKeychainPasswordState` from `index.ts`: per-site state. -/
structure EthSignKeychainPasswordState where
  timestamp : Nat
  neverSave : Bool
  logins : List EthSignKeychainEntry
deriving DecidableEq

/-- `EthSignKeychainConfig` from `index.ts`. -/
structure EthSignKeychainConfig where
  address : String
  encryptionMethod : String
  timestamp : Nat
deriving DecidableEq

/-- `EthSignKeychainRegistry` from `index.ts`. -/
structure EthSignKeychainRegistry where
  publicAddress : String
  publicKey : String
  timestamp : Nat
deriving DecidableEq

/-- `RemoteLocation` enum from `index.ts` / `types`. -/
inductive RemoteLocation where
  | ARWEAVE
  | AWS
  | NONE
deriving DecidableEq

/-- The decoded payload of one event-log record, one constructor per
`type` tag handled by the `switch` in `getObjectsFromStorage`
(`arweave.ts`).  `unknownEvent` stands for any other tag with a
decodable payload (the `default` branch: only the global timestamp is
updated). -/
inductive KeychainEvent where
  | pwStateClear (url : String) (timestamp : Nat)
  | pwStateDel (url : String) (username : String) (timestamp : Nat)
  | pwStateNeverSaveSet (url : String) (neverSave : Bool) (timestamp : Nat)
  | pwStateSet (url : String) (username : String) (password : String)
      (controlled : Option String) (timestamp : Nat)
  | configSet (address : String) (encryptionMethod : String) (timestamp : Nat)
  | registrySet (publicAddress : String) (publicKey : String) (timestamp : Nat)
  | unknownEvent (timestamp : Nat)
deriving DecidableEq

/-- `payload.timestamp` of a decoded record. -/
def eventTimestamp : KeychainEvent → Nat
  | .pwStateClear _ ts => ts
  | .pwStateDel _ _ ts => ts
  | .pwStateNeverSaveSet _ _ ts => ts
  | .pwStateSet _ _ _ _ ts => ts
  | .configSet _ _ ts => ts
  | .registrySet _ _ ts => ts
  | .unknownEvent ts => ts

/-- `EthSignKeychainState` from `index.ts` (with the `awsInitFailure`
field of the latest variant).  `pwState` and `credentialAccess` are JS
objects embedded as association lists; `pendingEntries` holds the
decoded payloads of queued outbound records. -/
structure EthSignKeychainState where
  registry : EthSignKeychainRegistry
  config : EthSignKeychainConfig
  pwState : List (String × EthSignKeychainPasswordState)
  pendingEntries : List KeychainEvent
  credentialAccess : List (String × Bool)
  password : Option String
  remoteLocation : Option RemoteLocation
  awsInitFailure : Option Bool
  address : String
  timestamp : Nat
deriving DecidableEq

/-- JS object property read `pwState[url]`: first binding wins. -/
def getSite : List (String × EthSignKeychainPasswordState) → String →
    Option EthSignKeychainPasswordState
  | [], _ => none
  | (k, v) :: rest, url => if k = url then some v else getSite rest url

/-- JS object property write `pwState[url] = st`: replace the first
binding in place, or append a new binding. -/
def putSite : List (String × EthSignKeychainPasswordState) → String →
    EthSignKeychainPasswordState → List (String × EthSignKeychainPasswordState)
  | [], url, st => [(url, st)]
  | (k, v) :: rest, url, st =>
      if k = url then (url, st) :: rest else (k, v) :: putSite rest url st

/-- The `pwStateDel` deletion loop in `getObjectsFromStorage`: remove
the first login whose username matches the payload and whose own
timestamp is strictly older than the deletion event, then stop
(`break`).  Returns the new login list and whether a deletion
happened. -/
def delFirst : List EthSignKeychainEntry → String → Nat →
    List EthSignKeychainEntry × Bool
  | [], _, _ => ([], false)
  | e :: rest, username, ts =>
      if e.username = username ∧ e.timestamp < ts then (rest, true)
      else
        let r := delFirst rest username ts
        (e :: r.1, r.2)

/-- The `pwStateSet` search loop in `getObjectsFromStorage`: find the
first login with the payload's username (`found`), and overwrite its
password/controlled/timestamp only when it is strictly older than the
event (`updated`), then stop.  Returns the new login list, `found`,
and `updated`. -/
def updateLogin : List EthSignKeychainEntry → String → String →
    Option String → Nat → List EthSignKeychainEntry × Bool × Bool
  | [], _, _, _, _ => ([], false, false)
  | e :: rest, username, password, controlled, ts =>
      if e.username = username then
        if e.timestamp < ts then
          ({ e with
              password := password
              controlled := controlled
              timestamp := ts } :: rest, true, true)
        else (e :: rest, true, false)
      else
        let r := updateLogin rest username password controlled ts
        (e :: r.1, r.2.1, r.2.2)

/-- The username search used by `checkRemoteStatus` / `setPassword`
(`findIndex (e) => e.username === username`): first matching login. -/
def findLogin : List EthSignKeychainEntry → String → Option EthSignKeychainEntry
  | [], _ => none
  | e :: rest, username =>
      if e.username = username then some e else findLogin rest username

/-- `case 'pwStateClear'` of `getObjectsFromStorage`. -/
def applyPwStateClear (url : String) (ts : Nat) (s : EthSignKeychainState) :
    EthSignKeychainState :=
  match getSite s.pwState url with
  | some st =>
      if st.timestamp < ts then
        let filtered := st.logins.filter fun e => ts < e.timestamp
        { s with pwState := (putSite s.pwState url
            ⟨ts, filtered.isEmpty, filtered⟩) }
      else s
  | none => s

/-- `case 'pwStateDel'` of `getObjectsFromStorage`. -/
def applyPwStateDel (url username : String) (ts : Nat)
    (s : EthSignKeychainState) : EthSignKeychainState :=
  match getSite s.pwState url with
  | some st =>
      let r := delFirst st.logins username ts
      if r.2 then
        let newTs := if st.timestamp < ts then ts else st.timestamp
        { s with pwState := putSite s.pwState url ⟨newTs, st.neverSave, r.1⟩ }
      else s
  | none => s

/-- `case 'pwStateNeverSaveSet'` of `getObjectsFromStorage`.  With
`neverSave = true` only logins strictly newer than the event survive;
with `neverSave = false` the filtered list stays empty, so the site's
logins are wiped. -/
def applyPwStateNeverSaveSet (url : String) (nsv : Bool) (ts : Nat)
    (s : EthSignKeychainState) : EthSignKeychainState :=
  match getSite s.pwState url with
  | some st =>
      let filtered := if nsv then st.logins.filter (fun e => ts < e.timestamp)
        else []
      let newTs := if st.timestamp < ts then ts else st.timestamp
      { s with pwState := putSite s.pwState url ⟨newTs, nsv, filtered⟩ }
  | none =>
      { s with pwState := putSite s.pwState url ⟨ts, nsv, []⟩ }

/-- `case 'pwStateSet'` of `getObjectsFromStorage`.  `userPublicKey`
fills the `address` of a freshly pushed login.  The site timestamp is
bumped only on the overwrite path (when an older login was updated) or
on site creation; the append path leaves it untouched. -/
def applyPwStateSet (userPublicKey url username password : String)
    (controlled : Option String) (ts : Nat) (s : EthSignKeychainState) :
    EthSignKeychainState :=
  match getSite s.pwState url with
  | some st =>
      let ns := if st.timestamp < ts ∧ st.neverSave then false
        else st.neverSave
      let r := updateLogin st.logins username password controlled ts
      if r.2.1 then
        let newTs := if r.2.2 ∧ st.timestamp < ts then ts else st.timestamp
        { s with pwState := putSite s.pwState url ⟨newTs, ns, r.1⟩ }
      else
        { s with pwState := (putSite s.pwState url
            ⟨st.timestamp, ns,
             st.logins ++ [⟨ts, url, username, password, userPublicKey,
               controlled⟩]⟩) }
  | none =>
      { s with pwState := (putSite s.pwState url
          ⟨ts, false, [⟨ts, url, username, password, userPublicKey,
            controlled⟩]⟩) }

/-- `case 'config'` of `getObjectsFromStorage`: wholesale replace iff
strictly newer. -/
def applyConfigSet (address encryptionMethod : String) (ts : Nat)
    (s : EthSignKeychainState) : EthSignKeychainState :=
  if s.config.timestamp < ts then
    { s with config := ⟨address, encryptionMethod, ts⟩ }
  else s

/-- `case 'registry'` of `getObjectsFromStorage`: wholesale replace iff
strictly newer. -/
def applyRegistrySet (publicAddress publicKey : String) (ts : Nat)
    (s : EthSignKeychainState) : EthSignKeychainState :=
  if s.registry.timestamp < ts then
    { s with registry := ⟨publicAddress, publicKey, ts⟩ }
  else s

/-- One iteration of the replay loop in `getObjectsFromStorage` for a
successfully decoded payload: first the global state timestamp is
raised to the payload's timestamp (this happens before the `switch`,
for every decoded payload), then the per-kind rule runs. -/
def applyEvent (userPublicKey : String) (s : EthSignKeychainState)
    (e : KeychainEvent) : EthSignKeychainState :=
  let s1 := { s with timestamp := max s.timestamp (eventTimestamp e) }
  match e with
  | .pwStateClear url ts => applyPwStateClear url ts s1
  | .pwStateDel url username ts => applyPwStateDel url username ts s1
  | .pwStateNeverSaveSet url nsv ts => applyPwStateNeverSaveSet url nsv ts s1
  | .pwStateSet url username password controlled ts =>
      applyPwStateSet userPublicKey url username password controlled ts s1
  | .configSet address encryptionMethod ts =>
      applyConfigSet address encryptionMethod ts s1
  | .registrySet publicAddress publicKey ts =>
      applyRegistrySet publicAddress publicKey ts s1
  | .unknownEvent _ => s1

/-- The replay loop of `getObjectsFromStorage` over already-decoded
payloads: fold `applyEvent` over the arrival-ordered event list. -/
def replay (userPublicKey : String) (events : List KeychainEvent)
    (s : EthSignKeychainState) : EthSignKeychainState :=
  events.foldl (applyEvent userPublicKey) s

/-- The default `startingState` parameter of `getObjectsFromStorage`. -/
def defaultStartingState (userPublicKey : String) : EthSignKeychainState :=
  { registry := ⟨"", "", 0⟩
    config := ⟨userPublicKey, "BIP-44", 0⟩
    pwState := []
    pendingEntries := []
    credentialAccess := []
    password := none
    remoteLocation := none
    awsInitFailure := none
    address := userPublicKey
    timestamp := 0 }

/-- The blank `EthSignKeychainState` returned by
`getEthSignKeychainState` when no stored state exists. -/
def emptyKeychainState : EthSignKeychainState :=
  { registry := ⟨"", "", 0⟩
    config := ⟨"", "BIP-44", 0⟩
    pwState := []
    pendingEntries := []
    credentialAccess := []
    password := none
    remoteLocation := none
    awsInitFailure := none
    address := ""
    timestamp := 0 }

/-- Ideal model of a `nacl.secretbox` ciphertext produced over the
serialized `pwState` map (as in `exportState`): the box records the
plaintext, the nonce, and the symmetric key it was sealed with. -/
structure SecretboxCiphertext where
  plaintext : List (String × EthSignKeychainPasswordState)
  nonce : String
  key : String
deriving DecidableEq

/-- Ideal model of `nacl.secretbox.open`: authenticated decryption
succeeds exactly when nonce and key match the ones the box was sealed
with, and returns `none` (the TS `null`) otherwise. -/
def secretboxOpen (c : SecretboxCiphertext) (nonce key : String) :
    Option (List (String × EthSignKeychainPasswordState)) :=
  if c.nonce = nonce ∧ c.key = key then some c.plaintext else none

/-- Ideal model of node's `createHash('sha256')...digest('hex')`: an
injective digest of the input string (only equality of digests matters
for the properties below, so the hash is embedded as a tagged copy of
its input). -/
def sha256Hex (s : String) : String := "sha256:" ++ s

/-- The string hashed by `exportState` in `index.ts`:
`JSON.stringify(` with fields `pass` and `nonce` `)`. -/
def exportKeyJson (pass nonce : String) : String :=
  "\x7b\"pass\":\"" ++ pass ++ "\",\"nonce\":\"" ++ nonce ++ "\"\x7d"

/-- The string hashed by `importState` in `index.ts`:
`JSON.stringify(` with fields `password` and `nonce` `)`.  Note the
field is named `password` here but `pass` on the export side. -/
def importKeyJson (pass nonce : String) : String :=
  "\x7b\"password\":\"" ++ pass ++ "\",\"nonce\":\"" ++ nonce ++ "\"\x7d"

/-- The JSON object produced by `exportState`:
`JSON.stringify(` with the nonce string and the ciphertext `)`. -/
structure ExportBlob where
  nonce : String
  data : SecretboxCiphertext
deriving DecidableEq

/-- Result shape of `exportState`. -/
structure ExportResult where
  success : Bool
  message : Option String
  data : Option ExportBlob
deriving DecidableEq

/-- Result shape of `importState`. -/
structure ImportResult where
  success : Bool
  message : Option String
  data : Option EthSignKeychainState
deriving DecidableEq

/-- `exportState` from `index.ts`.  `passEntered` is the outcome of the
`requestPassword` dialog (`none` models a rejected/empty prompt) and
`nonceStr` the nonce produced by `generateNonce` (random padding plus
timestamp bytes; its exact bytes are irrelevant to the properties
below, so it is a parameter). -/
def exportState (state : EthSignKeychainState) (passEntered : Option String)
    (nonceStr : String) : ExportResult :=
  if state.pwState.isEmpty then
    ⟨false, some "No credentials to export.", none⟩
  else
    match passEntered with
    | none => ⟨false, some "User rejected request.", none⟩
    | some pass =>
        let key := sha256Hex (exportKeyJson pass nonceStr)
        ⟨true, none, some ⟨nonceStr, ⟨state.pwState, nonceStr, key⟩⟩⟩

/-- The `idx < 0` / timestamp-compare step of the `importState` login
merge: replace the first login matching the imported credential's
`(url, username)` when it is strictly older, keep it otherwise, and
append the credential at the end when no login matches. -/
def upsertCred : List EthSignKeychainEntry → EthSignKeychainEntry →
    List EthSignKeychainEntry
  | [], cred => [cred]
  | e :: rest, cred =>
      if e.url = cred.url ∧ e.username = cred.username then
        if e.timestamp < cred.timestamp then cred :: rest else e :: rest
      else e :: upsertCred rest cred

/-- One iteration of the "true merge" inner loop of `importState`:
merge a single imported credential into the site keyed `key`, raising
the site and global timestamps to the credential's timestamp when
newer. -/
def mergeOneCred (key : String) (cur : EthSignKeychainState)
    (cred : EthSignKeychainEntry) : EthSignKeychainState :=
  match getSite cur.pwState key with
  | none => cur
  | some st =>
      { cur with
          pwState := (putSite cur.pwState key
            ⟨max st.timestamp cred.timestamp, st.neverSave,
             upsertCred st.logins cred⟩)
          timestamp := max cur.timestamp cred.timestamp }

/-- The "true merge" branch of `importState` for one site: fold the
imported logins into the current site. -/
def mergeCreds (key : String) (cur : EthSignKeychainState)
    (creds : List EthSignKeychainEntry) : EthSignKeychainState :=
  creds.foldl (mergeOneCred key) cur

/-- One iteration of the `importState` merge loop over the keys of the
decrypted import: the missing-site, newer-neverSave-import,
newer-unset-neverSave-import, and true-merge branches of
`index.ts`. -/
def mergeSite (cur : EthSignKeychainState)
    (kv : String × EthSignKeychainPasswordState) : EthSignKeychainState :=
  let key := kv.1
  let imp := kv.2
  match getSite cur.pwState key with
  | none =>
      { cur with
          pwState := putSite cur.pwState key imp
          timestamp := max cur.timestamp imp.timestamp }
  | some st =>
      if imp.neverSave ∧ st.timestamp < imp.timestamp then
        { cur with
            pwState := (putSite cur.pwState key
              ⟨imp.timestamp, imp.neverSave, []⟩)
            timestamp := max cur.timestamp imp.timestamp }
      else if imp.neverSave = false ∧ st.neverSave ∧
          st.timestamp < imp.timestamp then
        { cur with
            pwState := (putSite cur.pwState key
              ⟨imp.timestamp, false,
               imp.logins.filter fun it => st.timestamp < it.timestamp⟩)
            timestamp := max cur.timestamp imp.timestamp }
      else
        mergeCreds key cur imp.logins

/-- The full merge branch of `importState`: fold over the keys of the
decrypted imported map. -/
def mergeImport (cur : EthSignKeychainState)
    (decrypted : List (String × EthSignKeychainPasswordState)) :
    EthSignKeychainState :=
  decrypted.foldl mergeSite cur

/-- `importState` from `index.ts`.  `passEntered` is the
`requestPassword` outcome and `mergeChoice` the `importCredentials`
dialog outcome (consulted only when the current state's timestamp is
positive).  A failed `nacl.secretbox.open` leaves the buffer `null`,
so `decrypted` falls back to the empty object and the merge/replace
proceeds with it. -/
def importState (currentState : EthSignKeychainState)
    (importedData : ExportBlob) (passEntered : Option String)
    (mergeChoice : Bool) : ImportResult :=
  let merge := if 0 < currentState.timestamp then mergeChoice else true
  match passEntered with
  | none => ⟨false, some "User rejected request.", none⟩
  | some pass =>
      let key := sha256Hex (importKeyJson pass importedData.nonce)
      let buffer := secretboxOpen importedData.data importedData.nonce key
      let decrypted := buffer.getD []
      if merge then ⟨true, none, some (mergeImport currentState decrypted)⟩
      else ⟨true, none, some { currentState with pwState := decrypted }⟩

/-- The payload carried by a remote record, as seen by the decode steps
of `getObjectsFromStorage`.  `signatureAddr` is the address recovered
by `extractPublicKey`/`publicKeyToAddress` from the record's
`signature` field (`none` = no `signature` field); `message` is the
parse of `message.slice(119)` (`none` = `message` missing or not
JSON, in which case `JSON.parse` throws inside `isValidMessage`). -/
structure RegistryJson where
  publicAddress : String
  publicKey : String
  timestamp : Nat
  signatureAddr : Option String
  message : Option (String × String × Nat)
deriving DecidableEq

/-- Ideal model of a payload encrypted by
`getEncryptedStringFromBuffer`: the first layer is keyed by the
owner's private key and the optional second layer by the entered
password.  `garbage` stands for any string that decrypts under no
key. -/
inductive EncryptedBlob where
  | garbage
  | box (key : String) (pass : Option String) (payload : KeychainEvent)
deriving DecidableEq

/-- The string payload of a remote file, classified by how
`JSON.parse` and the decrypt/verify helpers see it. -/
inductive FilePayload where
  | notJson (raw : String)
  | registryJson (r : RegistryJson)
  | encrypted (b : EncryptedBlob)
deriving DecidableEq

/-- One file handed to `getObjectsFromStorage`.  `type` is the record's
`type` tag (`""` models a missing/falsy tag); `payload` is `none` when
the `payload` field is missing. -/
structure RemoteFile where
  type : String
  payload : Option FilePayload
deriving DecidableEq

/-- `decryptDataArrayFromString` from `arweave.ts`.  The whole body is
wrapped in `try`/`catch`, so it is total: it returns `none` for
non-JSON input, for a registry (plaintext) payload, and for a
ciphertext sealed under a different key; the optional password layer
is unwrapped when it matches and skipped when the record was written
single-layer. -/
def decryptDataArrayFromString (pl : FilePayload) (privateKey : String)
    (password : Option String) : Option KeychainEvent :=
  match pl with
  | .notJson _ => none
  | .registryJson _ => none
  | .encrypted .garbage => none
  | .encrypted (.box k p ev) =>
      if k = privateKey ∧ (p = none ∨ p = password) then some ev else none

/-- `verifyRegistrySignature` from `arweave.ts`.  It calls `JSON.parse`
with no `try`/`catch`, so a non-JSON payload throws (`Except.error`);
a parsed object with a `signature` field compares the recovered
address against the query address (both lowercased), and one without a
`signature` field yields `false`. -/
def verifyRegistrySignature (pl : FilePayload) (queryAddress : String) :
    Except Unit Bool :=
  match pl with
  | .notJson _ => .error ()
  | .registryJson r =>
      match r.signatureAddr with
      | some a => .ok (a.toLower = queryAddress.toLower)
      | none => .ok false
  | .encrypted _ => .ok false

/-- `isValidMessage` from `arweave.ts`.  It parses the payload and then
`payload.message.slice(119)` with no `try`/`catch`, so a non-JSON
payload or a missing/malformed `message` field throws; otherwise it
compares the signed message's fields against the payload's. -/
def isValidMessage (pl : FilePayload) : Except Unit Bool :=
  match pl with
  | .notJson _ => .error ()
  | .registryJson r =>
      match r.message with
      | none => .error ()
      | some m =>
          .ok (m.1 = r.publicKey ∧ m.2.1 = r.publicAddress ∧
            m.2.2 = r.timestamp)
  | .encrypted _ => .error ()

/-- `getObjectsFromStorage` from `arweave.ts`: fold the decoded files
into `startingState`.  Files with a falsy `type` or missing `payload`
are skipped; registry files run
`verifyRegistrySignature(...) && isValidMessage(...)` (short-circuit:
the second check runs only when the first returned `true`), and any
exception in those two aborts the whole replay; all other files are
decrypted with the catch-all `decryptDataArrayFromString` and skipped
when it yields nothing. -/
def getObjectsFromStorage (files : List RemoteFile)
    (userPublicKey userPrivateKey userAddress : String)
    (password : Option String) (startingState : EthSignKeychainState) :
    Except Unit EthSignKeychainState :=
  match files with
  | [] => .ok startingState
  | file :: rest =>
      if file.type = "" then
        getObjectsFromStorage rest userPublicKey userPrivateKey userAddress
          password startingState
      else
        match file.payload with
        | none =>
            getObjectsFromStorage rest userPublicKey userPrivateKey
              userAddress password startingState
        | some pl =>
            if file.type = "registry" then
              match verifyRegistrySignature pl userAddress with
              | .error e => .error e
              | .ok false =>
                  getObjectsFromStorage rest userPublicKey userPrivateKey
                    userAddress password startingState
              | .ok true =>
                  match isValidMessage pl with
                  | .error e => .error e
                  | .ok false =>
                      getObjectsFromStorage rest userPublicKey userPrivateKey
                        userAddress password startingState
                  | .ok true =>
                      match pl with
                      | .registryJson r =>
                          getObjectsFromStorage rest userPublicKey
                            userPrivateKey userAddress password
                            (applyEvent userPublicKey startingState
                              (.registrySet r.publicAddress r.publicKey
                                r.timestamp))
                      | _ =>
                          getObjectsFromStorage rest userPublicKey
                            userPrivateKey userAddress password startingState
            else
              match decryptDataArrayFromString pl userPrivateKey password with
              | none =>
                  getObjectsFromStorage rest userPublicKey userPrivateKey
                    userAddress password startingState
              | some ev =>
                  getObjectsFromStorage rest userPublicKey userPrivateKey
                    userAddress password
                    (applyEvent userPublicKey startingState ev)

/-- `Math.ceil(data.length / 50)`: the number of batches
`postUploadBatchToStorage` sends on the AWS path. -/
def chunkCount (n : Nat) : Nat := (n + 49) / 50

/-- The chunk loop of `postUploadBatchToStorage` (AWS path): send
chunks in order starting at index `i`; a chunk whose response reports
failures stops the loop.  `chunkOk i` is the acknowledgment of the
`i`-th chunk's request.  Returns overall success and the number of
chunk requests actually sent. -/
def runChunks : Nat → Nat → (Nat → Bool) → Bool × Nat
  | 0, _, _ => (true, 0)
  | n + 1, i, chunkOk =>
      if chunkOk i then
        let r := runChunks n (i + 1) chunkOk
        (r.1, r.2 + 1)
      else (false, 1)

/-- `postUploadBatchToStorage` from `misc/storage.ts` on the AWS path:
upload the pending entries in chunks of 50; the overall response says
`success` exactly when every chunk was acknowledged without
failures. -/
def postUploadBatchToStorage (entries : List KeychainEvent)
    (chunkOk : Nat → Bool) : Bool × Nat :=
  runChunks (chunkCount entries.length) 0 chunkOk

/-- The observable outcome of one `processPending` run: the state it
returns, how many network requests it made (the `initAws` fetch plus
any upload requests), whether the batched upload was invoked, and
whether `savePasswords` persisted the state. -/
structure ProcessPendingResult where
  state : EthSignKeychainState
  networkCalls : Nat
  uploadAttempted : Bool
  saved : Bool
deriving DecidableEq

/-- `processPending` from the latest `index.ts` variant
(`src/unnamed/part_003`).  External effects are passed as parameters:
`promptedPassword` is what the user enters if the password dialog is
shown, `initAwsOk` the outcome of the unconditional `initAws` fetch,
`chunkOk` the per-chunk upload acknowledgments on the AWS path, and
`arweaveServerOk` whether the single batched request of the
non-AWS path reports `success`.  Key retrieval (`getKeys`) is
host-wallet I/O and is modeled as succeeding. -/
def processPending (stored : EthSignKeychainState) (remoteEmpty : Bool)
    (promptedPassword : Option String) (initAwsOk : Bool)
    (chunkOk : Nat → Bool) (arweaveServerOk : Bool) : ProcessPendingResult :=
  let prompted := remoteEmpty ∧ stored.password = none
  let s1 := if prompted then { stored with password := promptedPassword }
    else stored
  if initAwsOk = false then
    { state := { s1 with awsInitFailure := some true }
      networkCalls := 1
      uploadAttempted := false
      saved := prompted }
  else
    let s2 := { s1 with awsInitFailure := some false }
    if s2.pendingEntries.length = 0 ∨
        s2.remoteLocation = some RemoteLocation.NONE then
      { state := s2, networkCalls := 1, uploadAttempted := false,
        saved := false }
    else
      if s2.remoteLocation.getD RemoteLocation.AWS = RemoteLocation.AWS then
        let r := postUploadBatchToStorage s2.pendingEntries chunkOk
        let s3 := if r.1 then { s2 with pendingEntries := [] } else s2
        { state := s3, networkCalls := 1 + r.2, uploadAttempted := true,
          saved := true }
      else
        let s3 := if arweaveServerOk then { s2 with pendingEntries := [] }
          else s2
        { state := s3, networkCalls := 2, uploadAttempted := true,
          saved := true }

/-! ### Helper lemmas about the association-list map operations -/

theorem getSite_putSite_self (m : List (String × EthSignKeychainPasswordState))
    (url : String) (st : EthSignKeychainPasswordState) :
    getSite (putSite m url st) url = some st := by
  induction m with
  | nil => simp [putSite, getSite]
  | cons kv rest ih =>
      obtain ⟨k, v⟩ := kv
      by_cases h : k = url
      · simp [putSite, getSite, h]
      · simp [putSite, getSite, h, ih]

theorem putSite_putSite (m : List (String × EthSignKeychainPasswordState))
    (url : String) (st st' : EthSignKeychainPasswordState) :
    putSite (putSite m url st) url st' = putSite m url st' := by
  induction m with
  | nil => simp [putSite]
  | cons kv rest ih =>
      obtain ⟨k, v⟩ := kv
      by_cases h : k = url
      · simp [putSite, h]
      · simp [putSite, h, ih]

theorem getSite_mem (m : List (String × EthSignKeychainPasswordState))
    (url : String) (st : EthSignKeychainPasswordState)
    (h : getSite m url = some st) : (url, st) ∈ m := by
  induction m with
  | nil => simp [getSite] at h
  | cons kv rest ih =>
      obtain ⟨k, v⟩ := kv
      by_cases hk : k = url
      · rw [getSite, if_pos hk] at h
        obtain rfl := Option.some.inj h
        subst hk
        exact List.mem_cons_self _ _
      · rw [getSite, if_neg hk] at h
        exact List.mem_cons_of_mem _ (ih h)

theorem if_lt_eq_max (a b : Nat) : (if a < b then b else a) = max a b := by
  by_cases h : a < b
  · simp [h, Nat.max_eq_right (Nat.le_of_lt h)]
  · simp [h, Nat.max_eq_left (Nat.not_lt.mp h)]

theorem max_max_self (a b : Nat) : max (max a b) b = max a b :=
  Nat.max_eq_left (Nat.le_max_right a b)

theorem filter_self_idem {α : Type} (p : α → Bool) (l : List α) :
    (l.filter p).filter p = l.filter p := by
  induction l with
  | nil => rfl
  | cons a l ih =>
      cases hpa : p a
      · simp [List.filter_cons, hpa, ih]
      · simp [List.filter_cons, hpa, ih]

/-! ### Concrete replay computations -/

/-- Claim C1, counterexample: replaying
`pwStateSet("a.com","u","p",ts=100)` then
`pwStateNeverSaveSet("a.com",true,ts=50)` from the default seed leaves
the site with `neverSave = true` and a non-empty logins list (the
login written at 100 survives the filter `timestamp > 50`), so the
claimed invariant fails on a reachable state. -/
theorem replay_neverSave_true_with_nonempty_logins :
    ((getSite (replay "pk" [.pwStateSet "a.com" "u" "p" none 100,
        .pwStateNeverSaveSet "a.com" true 50]
        (defaultStartingState "pk")).pwState "a.com").map
      fun st => (st.neverSave, st.logins.isEmpty)) = some (true, false) := by
  decide

/-- Claim C3, counterexample: the pair
`[SiteSet("a.com","u",ts=3), SiteDelete("a.com","u",ts=5)]` replayed in
its two orders from the default seed yields different final states: in
arrival order the delete removes the older login (final site has no
logins, timestamp 5); in the reversed order the delete hits a missing
site and the set then re-creates the login (final site has the login,
timestamp 3). -/
theorem replay_not_order_insensitive :
    replay "pk" [.pwStateSet "a.com" "u" "p" none 3, .pwStateDel "a.com" "u" 5]
        (defaultStartingState "pk") ≠
      replay "pk" [.pwStateDel "a.com" "u" 5,
        .pwStateSet "a.com" "u" "p" none 3] (defaultStartingState "pk") := by
  decide

/-- Claim C4, counterexample: for
`E = [SiteSet("a.com","u","p",ts=10), SiteClear("a.com",ts=12)]`,
replaying `E ++ E` differs from replaying `E`: the second pass's set
re-appends the login under the already-cleared site (append path has
no timestamp gate) and the second clear is a no-op because the site
timestamp already equals 12. -/
theorem replay_not_idempotent_on_lists :
    replay "pk"
        ([.pwStateSet "a.com" "u" "p" none 10, .pwStateClear "a.com" 12] ++
          [.pwStateSet "a.com" "u" "p" none 10, .pwStateClear "a.com" 12])
        (defaultStartingState "pk") ≠
      replay "pk"
        [.pwStateSet "a.com" "u" "p" none 10, .pwStateClear "a.com" 12]
        (defaultStartingState "pk") := by
  decide

/-- Claim C6 (confirmed): `SiteSet("a.com","u","p1",ts=100)` and
`SiteSet("a.com","u","p2",ts=50)` replayed in either order from the
default seed leave the login for `("a.com","u")` with password `"p1"`
— the higher-timestamp write wins. -/
theorem higher_timestamp_set_wins_either_order :
    ((getSite (replay "pk" [.pwStateSet "a.com" "u" "p1" none 100,
        .pwStateSet "a.com" "u" "p2" none 50]
        (defaultStartingState "pk")).pwState "a.com").map
      fun st => st.logins.map fun l => (l.username, l.password)) =
        some [("u", "p1")] ∧
    ((getSite (replay "pk" [.pwStateSet "a.com" "u" "p2" none 50,
        .pwStateSet "a.com" "u" "p1" none 100]
        (defaultStartingState "pk")).pwState "a.com").map
      fun st => st.logins.map fun l => (l.username, l.password)) =
        some [("u", "p1")] := by
  decide

/-- Claim C7, counterexample: after `pwStateNeverSaveSet("a.com",false,5)`
creates the site with timestamp 5, applying
`pwStateSet("a.com","u","p",ts=10)` takes the append path (username
absent) and leaves the site timestamp at 5 even though the event's
timestamp 10 is greater — the claimed bump does not happen on the
append path. -/
theorem pwStateSet_append_does_not_bump_site_timestamp :
    ((getSite (replay "pk" [.pwStateNeverSaveSet "a.com" false 5]
        (defaultStartingState "pk")).pwState "a.com").map
      fun st => st.timestamp) = some 5 ∧
    ((getSite (replay "pk" [.pwStateNeverSaveSet "a.com" false 5,
        .pwStateSet "a.com" "u" "p" none 10]
        (defaultStartingState "pk")).pwState "a.com").map
      fun st => (st.timestamp, st.logins.map fun l => l.username)) =
        some (5, ["u"]) ∧ (5 : Nat) < 10 := by
  decide

/-- Claim C2 (code bug): exporting a one-credential state and importing
the result into the empty state with the *same* password succeeds but
returns the empty state — `exportState` derives its key from the
digest of a JSON object whose field is named `pass`, `importState`
from one whose field is named `password`, so the keys differ, the
authenticated `secretbox.open` fails, the decrypted buffer falls back
to the empty object, and the merge is a no-op instead of reproducing
`pwState`. -/
theorem export_import_round_trip_loses_state :
    exportState
        { emptyKeychainState with
            pwState :=
              [("a.com", ⟨5, false, [⟨5, "a.com", "u", "pw1", "", none⟩]⟩)]
            timestamp := 5 }
        (some "pw") "N" =
      ⟨true, none, some ⟨"N",
        ⟨[("a.com", ⟨5, false, [⟨5, "a.com", "u", "pw1", "", none⟩]⟩)], "N",
         sha256Hex (exportKeyJson "pw" "N")⟩⟩⟩ ∧
    importState emptyKeychainState
        ⟨"N",
         ⟨[("a.com", ⟨5, false, [⟨5, "a.com", "u", "pw1", "", none⟩]⟩)], "N",
          sha256Hex (exportKeyJson "pw" "N")⟩⟩
        (some "pw") true =
      ⟨true, none, some emptyKeychainState⟩ ∧
    [("a.com",
      (⟨5, false, [⟨5, "a.com", "u", "pw1", "", none⟩]⟩ :
        EthSignKeychainPasswordState))] ≠
      ([] : List (String × EthSignKeychainPasswordState)) := by
  refine ⟨by decide, by decide, by decide⟩

/-- Claim C5 (code bug): a registry-typed file whose payload is not
JSON makes `getObjectsFromStorage` throw (the `JSON.parse` inside
`verifyRegistrySignature` has no `try`/`catch`), aborting the whole
replay, whereas a non-registry record that cannot be decrypted is
skipped and the remaining events are still applied. -/
theorem getObjectsFromStorage_throws_on_malformed_registry :
    getObjectsFromStorage [⟨"registry", some (.notJson "not-json")⟩]
        "pk" "sk" "0xabc" none (defaultStartingState "pk") = .error () ∧
    getObjectsFromStorage
        [⟨"pwStateSet", some (.encrypted .garbage)⟩,
         ⟨"pwStateSet", some (.encrypted (.box "sk" none
           (.pwStateSet "a.com" "u" "p" none 7)))⟩]
        "pk" "sk" "0xabc" none (defaultStartingState "pk") =
      .ok (applyEvent "pk" (defaultStartingState "pk")
        (.pwStateSet "a.com" "u" "p" none 7)) := by
  exact ⟨rfl, rfl⟩

/-- Claim C8, counterexample: `processPending` on a state with an
*empty* pending queue still makes a network request (the unconditional
`initAws` fetch) and does not return the state unchanged — the
`awsInitFailure` flag is rewritten before the queue-empty check. -/
theorem processPending_empty_queue_still_calls_network :
    (processPending
        { emptyKeychainState with remoteLocation := some RemoteLocation.AWS }
        false none true (fun _ => true) true).networkCalls = 1 ∧
    (processPending
        { emptyKeychainState with remoteLocation := some RemoteLocation.AWS }
        false none true (fun _ => true) true).uploadAttempted = false ∧
    (processPending
        { emptyKeychainState with remoteLocation := some RemoteLocation.AWS }
        false none true (fun _ => true) true).state ≠
      { emptyKeychainState with remoteLocation := some RemoteLocation.AWS } := by
  refine ⟨rfl, rfl, by decide⟩

/-- Claim C9, counterexample: with one pending entry on the AWS target
and the single upload chunk failing, `processPending` leaves the queue
intact (as claimed) but still persists the state (`savePasswords`
runs because `shouldUpdate` was set by the successful `initAws`), so
"the state is persisted only when every chunk succeeds" is false. -/
theorem processPending_saves_state_on_failed_upload :
    (postUploadBatchToStorage [KeychainEvent.pwStateSet "a.com" "u" "p" none 3]
      (fun _ => false)).1 = false ∧
    (processPending
        { emptyKeychainState with
            remoteLocation := some RemoteLocation.AWS
            pendingEntries := [.pwStateSet "a.com" "u" "p" none 3]
            awsInitFailure := some false }
        false none true (fun _ => false) true).saved = true ∧
    (processPending
        { emptyKeychainState with
            remoteLocation := some RemoteLocation.AWS
            pendingEntries := [.pwStateSet "a.com" "u" "p" none 3]
            awsInitFailure := some false }
        false none true (fun _ => false) true).state.pendingEntries =
      [.pwStateSet "a.com" "u" "p" none 3] := by
  refine ⟨rfl, rfl, rfl⟩

/-! ### The pwStateNeverSaveSet rule -/

theorem getSite_applyNSS (url : String) (nsv : Bool) (ts : Nat)
    (s : EthSignKeychainState) (st : EthSignKeychainPasswordState)
    (h : getSite s.pwState url = some st) :
    getSite (applyPwStateNeverSaveSet url nsv ts s).pwState url =
      some ⟨max st.timestamp ts, nsv,
        if nsv then st.logins.filter (fun e => ts < e.timestamp) else []⟩ := by
  unfold applyPwStateNeverSaveSet
  rw [h]
  simp [getSite_putSite_self, if_lt_eq_max]

/-- Claim C10 (confirmed): for a site key already present, replaying a
`pwStateNeverSaveSet` event with `neverSave == false` sets that site's
logins to the empty list regardless of the event's timestamp and of
every login's timestamp (the `filtered` list is only populated when
the flag is `true`), while the site timestamp is raised to the event's
timestamp when that is newer. -/
theorem neverSaveSet_false_wipes_logins (upk url : String) (ts : Nat)
    (s : EthSignKeychainState) (st : EthSignKeychainPasswordState)
    (h : getSite s.pwState url = some st) :
    getSite (applyEvent upk s (.pwStateNeverSaveSet url false ts)).pwState url =
      some ⟨max st.timestamp ts, false, []⟩ := by
  simp only [applyEvent, eventTimestamp]
  exact getSite_applyNSS url false ts _ st h

/-- Witness for `neverSaveSet_false_wipes_logins`: a site holding one
login with timestamp 3 is wiped by a `neverSave = false` event with
timestamp 9. -/
theorem neverSaveSet_false_wipes_logins_witness :
    getSite ({ emptyKeychainState with
        pwState := [("a.com", ⟨3, false, [⟨3, "a.com", "u", "x", "", none⟩]⟩)] } :
        EthSignKeychainState).pwState "a.com" =
      some (⟨3, false, [⟨3, "a.com", "u", "x", "", none⟩]⟩ :
        EthSignKeychainPasswordState) ∧
    getSite (applyEvent "pk"
        { emptyKeychainState with
            pwState := [("a.com", ⟨3, false, [⟨3, "a.com", "u", "x", "", none⟩]⟩)] }
        (.pwStateNeverSaveSet "a.com" false 9)).pwState "a.com" =
      some (⟨max 3 9, false, []⟩ : EthSignKeychainPasswordState) :=
  ⟨by decide,
   neverSaveSet_false_wipes_logins "pk" "a.com" 9
     { emptyKeychainState with
         pwState := [("a.com", ⟨3, false, [⟨3, "a.com", "u", "x", "", none⟩]⟩)] }
     ⟨3, false, [⟨3, "a.com", "u", "x", "", none⟩]⟩ (by decide)⟩

/-- Claim C1, amended (corrected): immediately after a
`pwStateNeverSaveSet(url, true, ts)` event is applied, every login
remaining at that site has a timestamp strictly greater than `ts` (so
the logins list is empty exactly when `ts` is at least every login's
timestamp, but it need not be empty in general — the claimed
"neverSave implies no logins" invariant does not hold, see the
counterexample). -/
theorem neverSaveSet_true_retains_only_newer_logins (upk url : String)
    (ts : Nat) (s : EthSignKeychainState) (st : EthSignKeychainPasswordState)
    (l : EthSignKeychainEntry)
    (h1 : getSite (applyEvent upk s
      (.pwStateNeverSaveSet url true ts)).pwState url = some st)
    (h2 : l ∈ st.logins) : ts < l.timestamp := by
  simp only [applyEvent, eventTimestamp] at h1
  rw [applyPwStateNeverSaveSet] at h1
  cases hg : getSite s.pwState url with
  | some st0 =>
      rw [show getSite ({ s with timestamp := max s.timestamp ts } :
        EthSignKeychainState).pwState url = some st0 from hg] at h1
      simp only [getSite_putSite_self, Option.some.injEq] at h1
      subst h1
      simp only [if_true] at h2
      have := List.of_mem_filter h2
      exact of_decide_eq_true this
  | none =>
      rw [show getSite ({ s with timestamp := max s.timestamp ts } :
        EthSignKeychainState).pwState url = none from hg] at h1
      simp only [getSite_putSite_self, Option.some.injEq] at h1
      subst h1
      simp at h2

/-- Witness for `neverSaveSet_true_retains_only_newer_logins`: a login
written at 10 survives a `neverSave = true` event at 5 and indeed
`5 < 10`. -/
theorem neverSaveSet_true_retains_only_newer_logins_witness :
    getSite (applyEvent "pk"
        { emptyKeychainState with
            pwState :=
              [("a.com", ⟨3, false, [⟨10, "a.com", "u", "x", "", none⟩]⟩)] }
        (.pwStateNeverSaveSet "a.com" true 5)).pwState "a.com" =
      some (⟨5, true, [⟨10, "a.com", "u", "x", "", none⟩]⟩ :
        EthSignKeychainPasswordState) ∧
    (⟨10, "a.com", "u", "x", "", none⟩ : EthSignKeychainEntry) ∈
      (⟨5, true, [⟨10, "a.com", "u", "x", "", none⟩]⟩ :
        EthSignKeychainPasswordState).logins ∧
    (5 : Nat) < 10 :=
  ⟨by decide, by decide,
   neverSaveSet_true_retains_only_newer_logins "pk" "a.com" 5
     { emptyKeychainState with
         pwState :=
           [("a.com", ⟨3, false, [⟨10, "a.com", "u", "x", "", none⟩]⟩)] }
     ⟨5, true, [⟨10, "a.com", "u", "x", "", none⟩]⟩
     ⟨10, "a.com", "u", "x", "", none⟩ (by decide) (by decide)⟩

/-! ### The pwStateSet rule -/

theorem updateLogin_found_older (l : List EthSignKeychainEntry)
    (u p : String) (c : Option String) (ts : Nat) (e : EthSignKeychainEntry)
    (hf : findLogin l u = some e) (ht : e.timestamp < ts) :
    (updateLogin l u p c ts).2.1 = true ∧ (updateLogin l u p c ts).2.2 = true := by
  induction l with
  | nil => simp [findLogin] at hf
  | cons a rest ih =>
      by_cases ha : a.username = u
      · rw [findLogin, if_pos ha] at hf
        obtain rfl := Option.some.inj hf
        simp [updateLogin, ha, ht]
      · rw [findLogin, if_neg ha] at hf
        simp [updateLogin, ha]
        exact ih hf

/-- Claim C7, amended (corrected): on the *overwrite* path — the site
exists and its first login with the event's username is strictly older
than the event — a `pwStateSet` raises the site's stored timestamp to
the event's timestamp whenever that is greater (i.e. to the maximum of
the two).  On the append path (username absent) the site timestamp is
left unchanged, see the counterexample. -/
theorem pwStateSet_overwrite_raises_site_timestamp (upk url u p : String)
    (c : Option String) (ts : Nat) (s : EthSignKeychainState)
    (st : EthSignKeychainPasswordState) (l : EthSignKeychainEntry)
    (h1 : getSite s.pwState url = some st)
    (h2 : findLogin st.logins u = some l) (h3 : l.timestamp < ts) :
    ((getSite (applyEvent upk s (.pwStateSet url u p c ts)).pwState url).map
      fun x => x.timestamp) = some (max st.timestamp ts) := by
  simp only [applyEvent, eventTimestamp]
  rw [applyPwStateSet]
  rw [show getSite ({ s with timestamp := max s.timestamp ts } :
    EthSignKeychainState).pwState url = some st from h1]
  obtain ⟨hf, hu⟩ := updateLogin_found_older st.logins u p c ts l h2 h3
  simp [hf, hu, getSite_putSite_self, if_lt_eq_max]

/-- Witness for `pwStateSet_overwrite_raises_site_timestamp`: a login
written at 3 overwritten by a set event at 9 raises the site timestamp
to `max 3 9`. -/
theorem pwStateSet_overwrite_raises_site_timestamp_witness :
    getSite ({ emptyKeychainState with
        pwState := [("a.com", ⟨3, false, [⟨3, "a.com", "u", "x", "", none⟩]⟩)] } :
        EthSignKeychainState).pwState "a.com" =
      some (⟨3, false, [⟨3, "a.com", "u", "x", "", none⟩]⟩ :
        EthSignKeychainPasswordState) ∧
    findLogin [⟨3, "a.com", "u", "x", "", none⟩] "u" =
      some (⟨3, "a.com", "u", "x", "", none⟩ : EthSignKeychainEntry) ∧
    (3 : Nat) < 9 ∧
    ((getSite (applyEvent "pk"
        { emptyKeychainState with
            pwState :=
              [("a.com", ⟨3, false, [⟨3, "a.com", "u", "x", "", none⟩]⟩)] }
        (.pwStateSet "a.com" "u" "q" none 9)).pwState "a.com").map
      fun x => x.timestamp) = some (max 3 9) :=
  ⟨by decide, by decide, by decide,
   pwStateSet_overwrite_raises_site_timestamp "pk" "a.com" "u" "q" none 9
     { emptyKeychainState with
         pwState := [("a.com", ⟨3, false, [⟨3, "a.com", "u", "x", "", none⟩]⟩)] }
     ⟨3, false, [⟨3, "a.com", "u", "x", "", none⟩]⟩
     ⟨3, "a.com", "u", "x", "", none⟩ (by decide) (by decide) (by decide)⟩

/-! ### The pending-queue dispatcher -/

/-- Claim C8, amended (corrected): when the pending queue is empty or
the remote target is `NONE`, `processPending` never invokes the
batched upload and leaves `pendingEntries` unchanged — but it is not a
complete no-op: the `initAws` network request still fires and
`awsInitFailure` (and possibly `password`) may change, see the
counterexample. -/
theorem processPending_no_upload_on_empty_or_none
    (stored : EthSignKeychainState) (remoteEmpty : Bool) (pw : Option String)
    (initAwsOk : Bool) (chunkOk : Nat → Bool) (awOk : Bool)
    (h : stored.pendingEntries = [] ∨
      stored.remoteLocation = some RemoteLocation.NONE) :
    (processPending stored remoteEmpty pw initAwsOk chunkOk
      awOk).uploadAttempted = false ∧
    (processPending stored remoteEmpty pw initAwsOk chunkOk
      awOk).state.pendingEntries = stored.pendingEntries := by
  rcases h with h | h <;>
    by_cases hp : (remoteEmpty = true) ∧ stored.password = none <;>
      cases initAwsOk <;>
        simp [processPending, hp, h]

/-- Witness for `processPending_no_upload_on_empty_or_none`: the blank
state has an empty queue, and draining it attempts no upload. -/
theorem processPending_no_upload_on_empty_or_none_witness :
    (emptyKeychainState.pendingEntries = [] ∨
      emptyKeychainState.remoteLocation = some RemoteLocation.NONE) ∧
    ((processPending emptyKeychainState false none true (fun _ => true)
        true).uploadAttempted = false ∧
     (processPending emptyKeychainState false none true (fun _ => true)
        true).state.pendingEntries = emptyKeychainState.pendingEntries) :=
  ⟨Or.inl (by decide),
   processPending_no_upload_on_empty_or_none emptyKeychainState false none
     true (fun _ => true) true (Or.inl (by decide))⟩

/-- Claim C9, amended (corrected): on the AWS target with a non-empty
queue (and `initAws` succeeding), `processPending` clears
`pendingEntries` exactly when the chunked batch upload reports success
— i.e. when every chunk was acknowledged — and otherwise leaves the
whole queue intact for retry.  The state, however, is persisted even
on a failed upload (see the counterexample), so only the
queue-clearing half of the original claim survives. -/
theorem processPending_clears_queue_iff_all_chunks_ok
    (stored : EthSignKeychainState) (remoteEmpty : Bool) (pw : Option String)
    (chunkOk : Nat → Bool) (awOk : Bool)
    (h1 : stored.remoteLocation = some RemoteLocation.AWS)
    (h2 : stored.pendingEntries ≠ []) :
    (processPending stored remoteEmpty pw true chunkOk
      awOk).state.pendingEntries =
      (if (postUploadBatchToStorage stored.pendingEntries chunkOk).1 then []
        else stored.pendingEntries) := by
  by_cases hp : (remoteEmpty = true) ∧ stored.password = none <;>
    simp [processPending, hp, h1, h2, apply_ite]

/-- Witness for `processPending_clears_queue_iff_all_chunks_ok`: one
pending entry on the AWS target with its single chunk acknowledged is
cleared. -/
theorem processPending_clears_queue_iff_all_chunks_ok_witness :
    ({ emptyKeychainState with
        remoteLocation := some RemoteLocation.AWS
        pendingEntries := [.pwStateSet "a.com" "u" "p" none 3] } :
      EthSignKeychainState).remoteLocation = some RemoteLocation.AWS ∧
    ({ emptyKeychainState with
        remoteLocation := some RemoteLocation.AWS
        pendingEntries := [.pwStateSet "a.com" "u" "p" none 3] } :
      EthSignKeychainState).pendingEntries ≠ [] ∧
    (processPending
        { emptyKeychainState with
            remoteLocation := some RemoteLocation.AWS
            pendingEntries := [.pwStateSet "a.com" "u" "p" none 3] }
        false none true (fun _ => true) true).state.pendingEntries =
      (if (postUploadBatchToStorage
          ({ emptyKeychainState with
              remoteLocation := some RemoteLocation.AWS
              pendingEntries := [.pwStateSet "a.com" "u" "p" none 3] } :
            EthSignKeychainState).pendingEntries (fun _ => true)).1 then []
        else ({ emptyKeychainState with
            remoteLocation := some RemoteLocation.AWS
            pendingEntries := [.pwStateSet "a.com" "u" "p" none 3] } :
          EthSignKeychainState).pendingEntries) :=
  ⟨by decide, by decide,
   processPending_clears_queue_iff_all_chunks_ok
     { emptyKeychainState with
         remoteLocation := some RemoteLocation.AWS
         pendingEntries := [.pwStateSet "a.com" "u" "p" none 3] }
     false none (fun _ => true) true (by decide) (by decide)⟩

/-! ### Order sensitivity of the Set/Delete pair -/

/-- Claim C3, amended (corrected): replay is *not* order-insensitive in
general (see the counterexample), but the highlighted
`[SiteSet(url,u,ts_set), SiteDelete(url,u,ts_del)]` pair does commute
from the default seed whenever the delete's timestamp does not exceed
the set's (`ts_del ≤ ts_set`): in either order the delete cannot
remove the newer login and the final state is the same. -/
theorem set_del_pair_commutes_of_del_not_newer (upk url u p : String)
    (c : Option String) (tsSet tsDel : Nat) (h : tsDel ≤ tsSet) :
    replay upk [.pwStateSet url u p c tsSet, .pwStateDel url u tsDel]
        (defaultStartingState upk) =
      replay upk [.pwStateDel url u tsDel, .pwStateSet url u p c tsSet]
        (defaultStartingState upk) := by
  have hnlt : ¬ tsSet < tsDel := Nat.not_lt.mpr h
  simp [replay, applyEvent, eventTimestamp, applyPwStateSet, applyPwStateDel,
    defaultStartingState, getSite, putSite, updateLogin, delFirst, hnlt,
    Nat.max_eq_left h, Nat.max_eq_right h, Nat.zero_max]

/-- Witness for `set_del_pair_commutes_of_del_not_newer` at
`ts_set = 7`, `ts_del = 4`. -/
theorem set_del_pair_commutes_of_del_not_newer_witness :
    (4 : Nat) ≤ 7 ∧
    replay "pk" [.pwStateSet "a.com" "u" "p" none 7, .pwStateDel "a.com" "u" 4]
        (defaultStartingState "pk") =
      replay "pk" [.pwStateDel "a.com" "u" 4,
        .pwStateSet "a.com" "u" "p" none 7] (defaultStartingState "pk") :=
  ⟨by decide,
   set_del_pair_commutes_of_del_not_newer "pk" "a.com" "u" "p" none 7 4
     (by decide)⟩

theorem updateLogin_not_found (l : List EthSignKeychainEntry) (u p : String)
    (c : Option String) (ts : Nat)
    (h : (updateLogin l u p c ts).2.1 = false) :
    (updateLogin l u p c ts).1 = l ∧ ∀ e ∈ l, e.username ≠ u := by
  induction l with
  | nil => exact ⟨rfl, by simp⟩
  | cons a rest ih =>
      by_cases ha : a.username = u
      · by_cases ht : a.timestamp < ts <;> simp [updateLogin, ha, ht] at h
      · simp only [updateLogin, ha, if_false] at h ⊢
        simp at h ⊢
        obtain ⟨h1, h2⟩ := ih h
        exact ⟨h1, ha, h2⟩

theorem updateLogin_found_not_updated (l : List EthSignKeychainEntry)
    (u p : String) (c : Option String) (ts : Nat)
    (h1 : (updateLogin l u p c ts).2.1 = true)
    (h2 : (updateLogin l u p c ts).2.2 = false) :
    (updateLogin l u p c ts).1 = l := by
  induction l with
  | nil => simp [updateLogin] at h1
  | cons a rest ih =>
      by_cases ha : a.username = u
      · by_cases ht : a.timestamp < ts
        · simp [updateLogin, ha, ht] at h2
        · simp [updateLogin, ha, ht]
      · simp [updateLogin, ha] at h1 h2 ⊢
        exact ih h1 h2

theorem updateLogin_after_update (l : List EthSignKeychainEntry)
    (u p : String) (c : Option String) (ts : Nat)
    (h : (updateLogin l u p c ts).2.2 = true) :
    updateLogin (updateLogin l u p c ts).1 u p c ts =
      ((updateLogin l u p c ts).1, true, false) := by
  induction l with
  | nil => simp [updateLogin] at h
  | cons a rest ih =>
      by_cases ha : a.username = u
      · by_cases ht : a.timestamp < ts
        · simp [updateLogin, ha, ht]
        · simp [updateLogin, ha, ht] at h
      · simp only [updateLogin, ha, if_false] at h ⊢
        simp at h ⊢
        simp [updateLogin, ha, ih h]

theorem updateLogin_append (l : List EthSignKeychainEntry) (u p : String)
    (c : Option String) (ts : Nat) (new : EthSignKeychainEntry)
    (hnone : ∀ e ∈ l, e.username ≠ u) (hnew : new.username = u)
    (hts : ¬ new.timestamp < ts) :
    updateLogin (l ++ [new]) u p c ts = (l ++ [new], true, false) := by
  induction l with
  | nil => simp [updateLogin, hnew, hts]
  | cons a rest ih =>
      have ha : a.username ≠ u := hnone a (List.mem_cons_self _ _)
      simp only [List.cons_append]
      simp [updateLogin, ha,
        ih fun e he => hnone e (List.mem_cons_of_mem _ he)]

theorem delFirst_false_eq (l : List EthSignKeychainEntry) (u : String)
    (ts : Nat) (h : (delFirst l u ts).2 = false) : (delFirst l u ts).1 = l := by
  induction l with
  | nil => rfl
  | cons a rest ih =>
      by_cases hc : a.username = u ∧ a.timestamp < ts
      · simp [delFirst, hc] at h
      · simp [delFirst, hc] at h ⊢
        exact ih h

theorem delFirst_no_match (l : List EthSignKeychainEntry) (u : String)
    (ts : Nat) (h : ∀ e ∈ l, ¬(e.username = u ∧ e.timestamp < ts)) :
    delFirst l u ts = (l, false) := by
  induction l with
  | nil => rfl
  | cons a rest ih =>
      have ha := h a (List.mem_cons_self _ _)
      simp [delFirst, ha, ih fun e he => h e (List.mem_cons_of_mem _ he)]

theorem delFirst_deleted_no_username (l : List EthSignKeychainEntry)
    (u : String) (ts : Nat)
    (hp : l.Pairwise fun a b => a.username ≠ b.username)
    (h : (delFirst l u ts).2 = true) :
    ∀ e ∈ (delFirst l u ts).1, e.username ≠ u := by
  induction l with
  | nil => simp [delFirst] at h
  | cons a rest ih =>
      rw [List.pairwise_cons] at hp
      obtain ⟨hpa, hprest⟩ := hp
      by_cases hc : a.username = u ∧ a.timestamp < ts
      · simp only [delFirst, hc, if_pos]
        intro e he
        have := hpa e he
        rw [hc.1] at this
        exact fun heq => this heq.symm
      · by_cases hau : a.username = u
        · -- `a` matches the username but is too new; by pairwise-distinct
          -- usernames nothing in `rest` matches, so no deletion can happen
          have hrest : ∀ e ∈ rest, ¬(e.username = u ∧ e.timestamp < ts) := by
            intro e he hcontra
            have := hpa e he
            rw [hau] at this
            exact this hcontra.1.symm
          simp [delFirst, hc, delFirst_no_match rest u ts hrest] at h
        · simp only [delFirst, hc, if_neg, not_false_iff] at h ⊢
          simp at h ⊢
          refine ⟨hau, ?_⟩
          exact ih hprest h

theorem applyPwStateClear_idem (url : String) (ts : Nat)
    (s : EthSignKeychainState) :
    applyPwStateClear url ts (applyPwStateClear url ts s) =
      applyPwStateClear url ts s := by
  cases hg : getSite s.pwState url with
  | none => simp [applyPwStateClear, hg]
  | some st =>
      by_cases hlt : st.timestamp < ts
      · have h1 : applyPwStateClear url ts s =
            { s with pwState := (putSite s.pwState url
                ⟨ts, (st.logins.filter fun e => ts < e.timestamp).isEmpty,
                 st.logins.filter fun e => ts < e.timestamp⟩) } := by
          rw [applyPwStateClear, hg]
          simp [hlt]
        rw [h1]
        simp [applyPwStateClear, getSite_putSite_self]
      · have h1 : applyPwStateClear url ts s = s := by
          rw [applyPwStateClear, hg]
          simp [hlt]
        rw [h1, applyPwStateClear, hg]
        simp [hlt]

theorem applyPwStateNeverSaveSet_idem (url : String) (nsv : Bool) (ts : Nat)
    (s : EthSignKeychainState) :
    applyPwStateNeverSaveSet url nsv ts (applyPwStateNeverSaveSet url nsv ts s) =
      applyPwStateNeverSaveSet url nsv ts s := by
  cases hg : getSite s.pwState url with
  | none =>
      have h1 : applyPwStateNeverSaveSet url nsv ts s =
          { s with pwState := putSite s.pwState url ⟨ts, nsv, []⟩ } := by
        rw [applyPwStateNeverSaveSet, hg]
      rw [h1]
      cases nsv <;>
        simp [applyPwStateNeverSaveSet, getSite_putSite_self, putSite_putSite]
  | some st =>
      have h1 : applyPwStateNeverSaveSet url nsv ts s =
          { s with pwState := (putSite s.pwState url
              ⟨if st.timestamp < ts then ts else st.timestamp, nsv,
               if nsv then st.logins.filter (fun e => ts < e.timestamp)
                 else []⟩) } := by
        rw [applyPwStateNeverSaveSet, hg]
      have hle : ¬ (if st.timestamp < ts then ts else st.timestamp) < ts := by
        by_cases h : st.timestamp < ts
        · simp [h]
        · simp [h]
      rw [h1]
      cases nsv <;>
        simp [applyPwStateNeverSaveSet, getSite_putSite_self, putSite_putSite,
          hle, filter_self_idem]

theorem applyPwStateDel_idem (url u : String) (ts : Nat)
    (s : EthSignKeychainState)
    (hp : ∀ q ∈ s.pwState, q.2.logins.Pairwise
      fun a b => a.username ≠ b.username) :
    applyPwStateDel url u ts (applyPwStateDel url u ts s) =
      applyPwStateDel url u ts s := by
  cases hg : getSite s.pwState url with
  | none => simp [applyPwStateDel, hg]
  | some st =>
      have hpst : st.logins.Pairwise fun a b => a.username ≠ b.username :=
        hp (url, st) (getSite_mem _ _ _ hg)
      cases hd : (delFirst st.logins u ts).2 with
      | false =>
          have h1 : applyPwStateDel url u ts s = s := by
            rw [applyPwStateDel, hg]
            simp [hd]
          rw [h1, applyPwStateDel, hg]
          simp [hd]
      | true =>
          have h1 : applyPwStateDel url u ts s =
              { s with pwState := (putSite s.pwState url
                  ⟨if st.timestamp < ts then ts else st.timestamp,
                   st.neverSave, (delFirst st.logins u ts).1⟩) } := by
            rw [applyPwStateDel, hg]
            simp [hd]
          have hnou : ∀ e ∈ (delFirst st.logins u ts).1, e.username ≠ u :=
            delFirst_deleted_no_username st.logins u ts hpst hd
          have hnomatch : delFirst (delFirst st.logins u ts).1 u ts =
              ((delFirst st.logins u ts).1, false) :=
            delFirst_no_match _ u ts fun e he hc => hnou e he hc.1
          rw [h1]
          simp [applyPwStateDel, getSite_putSite_self, hnomatch]

theorem applyPwStateSet_idem (upk url u p : String) (c : Option String)
    (ts : Nat) (s : EthSignKeychainState) :
    applyPwStateSet upk url u p c ts (applyPwStateSet upk url u p c ts s) =
      applyPwStateSet upk url u p c ts s := by
  cases hg : getSite s.pwState url with
  | none =>
      have h1 : applyPwStateSet upk url u p c ts s =
          { s with pwState := (putSite s.pwState url
              ⟨ts, false, [⟨ts, url, u, p, upk, c⟩]⟩) } := by
        rw [applyPwStateSet, hg]
      rw [h1]
      simp [applyPwStateSet, getSite_putSite_self, updateLogin, putSite_putSite]
  | some st =>
      cases hf : (updateLogin st.logins u p c ts).2.1 with
      | false =>
          obtain ⟨hl, hnone⟩ := updateLogin_not_found st.logins u p c ts hf
          have h1 : applyPwStateSet upk url u p c ts s =
              { s with pwState := (putSite s.pwState url
                  ⟨st.timestamp,
                   if st.timestamp < ts ∧ st.neverSave then false
                     else st.neverSave,
                   st.logins ++ [⟨ts, url, u, p, upk, c⟩]⟩) } := by
            rw [applyPwStateSet, hg]
            simp [hf]
          have h2 := updateLogin_append st.logins u p c ts
            ⟨ts, url, u, p, upk, c⟩ hnone rfl (lt_irrefl ts)
          rw [h1]
          simp only [applyPwStateSet, getSite_putSite_self, h2]
          by_cases hlt : st.timestamp < ts <;> cases hnsv : st.neverSave <;>
            simp [hlt, hnsv, putSite_putSite]
      | true =>
          cases hu : (updateLogin st.logins u p c ts).2.2 with
          | false =>
              have hl := updateLogin_found_not_updated st.logins u p c ts hf hu
              have h1 : applyPwStateSet upk url u p c ts s =
                  { s with pwState := (putSite s.pwState url
                      ⟨st.timestamp,
                       if st.timestamp < ts ∧ st.neverSave then false
                         else st.neverSave,
                       st.logins⟩) } := by
                rw [applyPwStateSet, hg]
                simp [hf, hu, hl]
              rw [h1]
              simp only [applyPwStateSet, getSite_putSite_self, hf, hu, hl]
              by_cases hlt : st.timestamp < ts <;> cases hnsv : st.neverSave <;>
                simp [hlt, hnsv, putSite_putSite, hf, hu, hl]
          | true =>
              have h2 := updateLogin_after_update st.logins u p c ts hu
              have h1 : applyPwStateSet upk url u p c ts s =
                  { s with pwState := (putSite s.pwState url
                      ⟨if st.timestamp < ts then ts else st.timestamp,
                       if st.timestamp < ts ∧ st.neverSave then false
                         else st.neverSave,
                       (updateLogin st.logins u p c ts).1⟩) } := by
                rw [applyPwStateSet, hg]
                simp [hf, hu]
              have hle : ¬ (if st.timestamp < ts then ts else st.timestamp)
                  < ts := by
                by_cases h : st.timestamp < ts
                · simp [h]
                · simp [h]
              rw [h1]
              simp only [applyPwStateSet, getSite_putSite_self, h2]
              by_cases hlt : st.timestamp < ts <;> cases hnsv : st.neverSave <;>
                simp [hlt, hnsv, putSite_putSite, hle]

theorem applyPwStateClear_timestamp (url : String) (ts : Nat)
    (s : EthSignKeychainState) :
    (applyPwStateClear url ts s).timestamp = s.timestamp := by
  unfold applyPwStateClear
  split <;> simp [apply_ite]

theorem applyPwStateDel_timestamp (url u : String) (ts : Nat)
    (s : EthSignKeychainState) :
    (applyPwStateDel url u ts s).timestamp = s.timestamp := by
  unfold applyPwStateDel
  split <;> simp [apply_ite]

theorem applyPwStateNeverSaveSet_timestamp (url : String) (nsv : Bool)
    (ts : Nat) (s : EthSignKeychainState) :
    (applyPwStateNeverSaveSet url nsv ts s).timestamp = s.timestamp := by
  unfold applyPwStateNeverSaveSet
  split <;> rfl

theorem applyPwStateSet_timestamp (upk url u p : String) (c : Option String)
    (ts : Nat) (s : EthSignKeychainState) :
    (applyPwStateSet upk url u p c ts s).timestamp = s.timestamp := by
  unfold applyPwStateSet
  split <;> simp [apply_ite]

theorem applyConfigSet_timestamp (a em : String) (ts : Nat)
    (s : EthSignKeychainState) :
    (applyConfigSet a em ts s).timestamp = s.timestamp := by
  unfold applyConfigSet
  split <;> rfl

theorem applyRegistrySet_timestamp (pa pk : String) (ts : Nat)
    (s : EthSignKeychainState) :
    (applyRegistrySet pa pk ts s).timestamp = s.timestamp := by
  unfold applyRegistrySet
  split <;> rfl

theorem applyConfigSet_idem (a em : String) (ts : Nat)
    (s : EthSignKeychainState) :
    applyConfigSet a em ts (applyConfigSet a em ts s) =
      applyConfigSet a em ts s := by
  by_cases h : s.config.timestamp < ts
  · have h1 : applyConfigSet a em ts s = { s with config := ⟨a, em, ts⟩ } := by
      rw [applyConfigSet, if_pos h]
    rw [h1, applyConfigSet]
    simp
  · have h1 : applyConfigSet a em ts s = s := by
      rw [applyConfigSet, if_neg h]
    rw [h1, applyConfigSet, if_neg h]

theorem applyRegistrySet_idem (pa pk : String) (ts : Nat)
    (s : EthSignKeychainState) :
    applyRegistrySet pa pk ts (applyRegistrySet pa pk ts s) =
      applyRegistrySet pa pk ts s := by
  by_cases h : s.registry.timestamp < ts
  · have h1 : applyRegistrySet pa pk ts s = { s with registry := ⟨pa, pk, ts⟩ } := by
      rw [applyRegistrySet, if_pos h]
    rw [h1, applyRegistrySet]
    simp
  · have h1 : applyRegistrySet pa pk ts s = s := by
      rw [applyRegistrySet, if_neg h]
    rw [h1, applyRegistrySet, if_neg h]

theorem applyEvent_timestamp (upk : String) (e : KeychainEvent)
    (s : EthSignKeychainState) :
    (applyEvent upk s e).timestamp = max s.timestamp (eventTimestamp e) := by
  cases e <;>
    simp [applyEvent, eventTimestamp, applyPwStateClear_timestamp,
      applyPwStateDel_timestamp, applyPwStateNeverSaveSet_timestamp,
      applyPwStateSet_timestamp, applyConfigSet_timestamp,
      applyRegistrySet_timestamp]

theorem bump_applyEvent (upk : String) (e : KeychainEvent)
    (s : EthSignKeychainState) :
    ({ applyEvent upk s e with
        timestamp := max (applyEvent upk s e).timestamp (eventTimestamp e) } :
      EthSignKeychainState) = applyEvent upk s e :=
  calc ({ applyEvent upk s e with
      timestamp := max (applyEvent upk s e).timestamp (eventTimestamp e) } :
        EthSignKeychainState)
      = { applyEvent upk s e with
          timestamp := (applyEvent upk s e).timestamp } := by
        have hx := applyEvent_timestamp upk e s
        rw [hx, max_max_self, ← hx]
    _ = applyEvent upk s e := rfl

theorem applyEvent_idem (upk : String) (e : KeychainEvent)
    (s : EthSignKeychainState)
    (h : ∀ q ∈ s.pwState, q.2.logins.Pairwise
      fun a b => a.username ≠ b.username) :
    applyEvent upk (applyEvent upk s e) e = applyEvent upk s e := by
  cases e with
  | pwStateClear url ts =>
      show applyPwStateClear url ts
          { applyEvent upk s (.pwStateClear url ts) with
            timestamp := max (applyEvent upk s (.pwStateClear url ts)).timestamp
              (eventTimestamp (.pwStateClear url ts)) } =
        applyEvent upk s (.pwStateClear url ts)
      rw [bump_applyEvent]
      exact applyPwStateClear_idem url ts _
  | pwStateDel url u ts =>
      show applyPwStateDel url u ts
          { applyEvent upk s (.pwStateDel url u ts) with
            timestamp := max (applyEvent upk s (.pwStateDel url u ts)).timestamp
              (eventTimestamp (.pwStateDel url u ts)) } =
        applyEvent upk s (.pwStateDel url u ts)
      rw [bump_applyEvent]
      exact applyPwStateDel_idem url u ts _ h
  | pwStateNeverSaveSet url nsv ts =>
      show applyPwStateNeverSaveSet url nsv ts
          { applyEvent upk s (.pwStateNeverSaveSet url nsv ts) with
            timestamp :=
              max (applyEvent upk s (.pwStateNeverSaveSet url nsv ts)).timestamp
                (eventTimestamp (.pwStateNeverSaveSet url nsv ts)) } =
        applyEvent upk s (.pwStateNeverSaveSet url nsv ts)
      rw [bump_applyEvent]
      exact applyPwStateNeverSaveSet_idem url nsv ts _
  | pwStateSet url u p c ts =>
      show applyPwStateSet upk url u p c ts
          { applyEvent upk s (.pwStateSet url u p c ts) with
            timestamp :=
              max (applyEvent upk s (.pwStateSet url u p c ts)).timestamp
                (eventTimestamp (.pwStateSet url u p c ts)) } =
        applyEvent upk s (.pwStateSet url u p c ts)
      rw [bump_applyEvent]
      exact applyPwStateSet_idem upk url u p c ts _
  | configSet a em ts =>
      show applyConfigSet a em ts
          { applyEvent upk s (.configSet a em ts) with
            timestamp := max (applyEvent upk s (.configSet a em ts)).timestamp
              (eventTimestamp (.configSet a em ts)) } =
        applyEvent upk s (.configSet a em ts)
      rw [bump_applyEvent]
      exact applyConfigSet_idem a em ts _
  | registrySet pa pk ts =>
      show applyRegistrySet pa pk ts
          { applyEvent upk s (.registrySet pa pk ts) with
            timestamp := max (applyEvent upk s (.registrySet pa pk ts)).timestamp
              (eventTimestamp (.registrySet pa pk ts)) } =
        applyEvent upk s (.registrySet pa pk ts)
      rw [bump_applyEvent]
      exact applyRegistrySet_idem pa pk ts _
  | unknownEvent ts =>
      show ({ applyEvent upk s (.unknownEvent ts) with
          timestamp := max (applyEvent upk s (.unknownEvent ts)).timestamp
            (eventTimestamp (.unknownEvent ts)) } :
          EthSignKeychainState) =
        applyEvent upk s (.unknownEvent ts)
      rw [bump_applyEvent]

/-- Claim C4, amended (corrected): replay is idempotent for a *single*
event — for every event `e` and every state whose per-site logins have
pairwise-distinct usernames (an invariant of states built by replay),
`replay([e] ++ [e], seed) = replay([e], seed)`, i.e. re-applying the
same event immediately is a no-op.  For multi-event lists `E`,
`replay(E ++ E, seed)` can differ from `replay(E, seed)` — see the
counterexample. -/
theorem replay_single_event_idempotent (upk : String) (e : KeychainEvent)
    (s : EthSignKeychainState)
    (h : ∀ q ∈ s.pwState, q.2.logins.Pairwise
      fun a b => a.username ≠ b.username) :
    replay upk ([e] ++ [e]) s = replay upk [e] s := by
  simp only [replay, List.cons_append, List.nil_append, List.foldl_cons,
    List.foldl_nil]
  exact applyEvent_idem upk e s h

/-- Witness for `replay_single_event_idempotent`: a single set event
replayed twice over the default seed (whose empty `pwState` trivially
has pairwise-distinct usernames) equals one replay. -/
theorem replay_single_event_idempotent_witness :
    (∀ q ∈ (defaultStartingState "pk").pwState, q.2.logins.Pairwise
      fun a b => a.username ≠ b.username) ∧
    replay "pk" ([.pwStateSet "a.com" "u" "p" none 5] ++
        [.pwStateSet "a.com" "u" "p" none 5]) (defaultStartingState "pk") =
      replay "pk" [.pwStateSet "a.com" "u" "p" none 5]
        (defaultStartingState "pk") :=
  ⟨by simp [defaultStartingState],
   replay_single_event_idempotent "pk" (.pwStateSet "a.com" "u" "p" none 5)
     (defaultStartingState "pk") (by simp [defaultStartingState])⟩
